import Mathlib

/-!
Shallow embedding of the cafeteria reservation / till application
(`src/app.py`, with `src/app_sheets.py` as the second backend variant).

Dates are ISO strings, money is modelled as `ℚ` (every price is a multiple
of 0.5, so Python float arithmetic on reachable ledgers is exact and `ℚ`
is a faithful model), ledgers are Lean lists in insertion order (SQLite
autoincrement ids / spreadsheet row order).
-/

namespace Cafeteria

/-- Python `str.strip()`: drop leading and trailing whitespace. -/
def pyStrip (s : String) : String :=
  String.mk
    (((s.data.dropWhile Char.isWhitespace).reverse.dropWhile
        Char.isWhitespace).reverse)

/-- Python `s.upper()` (ASCII-faithful). -/
def pyUpper (s : String) : String := String.mk (s.data.map Char.toUpper)

/-- Python `s.lower()` (ASCII-faithful). -/
def pyLower (s : String) : String := String.mk (s.data.map Char.toLower)

/-- Split a character list at every character satisfying `p`, keeping
empty pieces (the skeleton of Python `str.split(sep)`). -/
def splitP (p : Char → Bool) : List Char → List (List Char)
  | [] => [[]]
  | c :: cs =>
    if p c then [] :: splitP p cs
    else (c :: (splitP p cs).headD []) :: (splitP p cs).tail

/-- Python `str.split()` with no argument: split on whitespace runs,
dropping empty pieces. -/
def pySplit (s : String) : List String :=
  ((splitP Char.isWhitespace s.data).filter (fun p => p ≠ [])).map String.mk

/-- Python `str.split(sep)` for a one-character separator, keeping
empty pieces. -/
def pySplitOn (sep : Char) (s : String) : List String :=
  (splitP (fun c => c = sep) s.data).map String.mk

/-- `norm_name` from `app.py`: `" ".join((s or "").strip().upper().split())`. -/
def norm_name (s : String) : String :=
  " ".intercalate (pySplit (pyUpper (pyStrip s)))

/-- Value of a digit list read in base 10 (used by the `int(...)` model). -/
def digitsToNat (l : List Char) : ℕ :=
  l.foldl (fun a c => a * 10 + (c.toNat - 48)) 0

/-- Model of Python `int(str)` on a decimal literal: strips surrounding
whitespace, accepts one optional sign, then a nonempty digit run;
anything else raises `ValueError` (modelled as `none`). -/
def pyInt (s : String) : Option Int :=
  match (pyStrip s).data with
  | [] => none
  | '-' :: rest =>
    if rest ≠ [] ∧ rest.all Char.isDigit then some (-(digitsToNat rest : Int))
    else none
  | '+' :: rest =>
    if rest ≠ [] ∧ rest.all Char.isDigit then some (digitsToNat rest : Int)
    else none
  | l =>
    if l.all Char.isDigit then some (digitsToNat l : Int) else none

/-- Zero-pad a natural to a minimum width (Python `f"{n:0wd}"` for `n ≥ 0`). -/
def padZeros (w : ℕ) (n : ℕ) : String :=
  let s := toString n
  String.mk (List.replicate (w - s.length) '0') ++ s

/-- Python `f"{i:0wd}"`: the sign occupies one column of the width. -/
def fmtWidthInt (w : ℕ) (i : Int) : String :=
  if i < 0 then "-" ++ padZeros (w - 1) i.natAbs else padZeros w i.toNat

/-- Python `needle in hay` on strings: substring containment. -/
def strContains (hay needle : String) : Bool :=
  (List.range (hay.data.length + 1)).any
    (fun i => needle.data.isPrefixOf (hay.data.drop i))

/-! ### Date codec (`to_iso_any`, display rendering, weekday labels) -/

/-- The exception a date-codec call can raise to its caller. -/
inductive PyEx where
  | valueError
deriving DecidableEq

/-- `to_iso_any` from `app.py`.  `today` stands for `today_iso()` (the local
calendar date at call time) and `fromiso` is the `datetime.fromisoformat`
fallback parser, abstracted as an oracle returning the parsed date's ISO
form or `none` when it raises.  The `dd.MM.yyyy` branch runs
`int(...)` on the three dot-separated pieces outside any `try`, so a
failing parse there raises to the caller (`Except.error`). -/
def to_iso_any (today : String) (fromiso : String → Option String)
    (s0 : String) : Except PyEx String :=
  let s := pyStrip s0
  if s = "" then
    Except.ok today
  else if s.data.length = 10 ∧ s.data[2]? = some '.' ∧ s.data[5]? = some '.' then
    match pySplitOn '.' s with
    | [dd, mm, yyyy] =>
      match pyInt dd, pyInt mm, pyInt yyyy with
      | some a, some b, some c =>
        Except.ok (fmtWidthInt 4 c ++ "-" ++ fmtWidthInt 2 b ++ "-" ++ fmtWidthInt 2 a)
      | _, _, _ => Except.error PyEx.valueError
    | _ => Except.error PyEx.valueError
  else if s.data.length = 10 ∧ s.data[4]? = some '-' ∧ s.data[7]? = some '-' then
    Except.ok s
  else
    match fromiso s with
    | some d => Except.ok d
    | none => Except.ok today

/-- Display rendering `f"{d:02d}.{m:02d}.{y:04d}"` after
`y, m, d = map(int, iso.split("-"))` (as in `api_initial`). -/
def to_display (iso : String) : Option String :=
  match pySplitOn '-' iso with
  | [y, m, d] =>
    match pyInt y, pyInt m, pyInt d with
    | some yy, some mm, some dd =>
      some (fmtWidthInt 2 dd ++ "." ++ fmtWidthInt 2 mm ++ "." ++ fmtWidthInt 4 yy)
    | _, _, _ => none
  | _ => none

/-- Gregorian leap year (`datetime.date` proleptic calendar). -/
def isLeap (y : ℕ) : Bool :=
  (y % 4 = 0 ∧ y % 100 ≠ 0) ∨ y % 400 = 0

/-- Days in a month of the proleptic Gregorian calendar. -/
def daysInMonth (y m : ℕ) : ℕ :=
  if m = 2 then (if isLeap y then 29 else 28)
  else if m = 4 ∨ m = 6 ∨ m = 9 ∨ m = 11 then 30
  else 31

/-- Days in year `y` strictly before month `m`. -/
def daysBeforeMonth (y m : ℕ) : ℕ :=
  (List.range (m - 1)).foldl (fun a i => a + daysInMonth y (i + 1)) 0

/-- `date(y, m, d).toordinal()`: day count with `0001-01-01 = 1`. -/
def toordinal (y m d : ℕ) : ℕ :=
  365 * (y - 1) + (y - 1) / 4 - (y - 1) / 100 + (y - 1) / 400
    + daysBeforeMonth y m + d

/-- `date(y, m, d).weekday()`: Monday = 0 … Sunday = 6
(ordinal 1 = `0001-01-01` was a Monday). -/
def pyWeekday (y m d : ℕ) : ℕ :=
  (toordinal y m d + 6) % 7

/-- `1 ≤ m ≤ 12` and `1 ≤ d ≤ daysInMonth`, `y ≥ 1`: a valid calendar date. -/
def validDate (y m d : ℕ) : Prop :=
  1 ≤ y ∧ 1 ≤ m ∧ m ≤ 12 ∧ 1 ≤ d ∧ d ≤ daysInMonth y m

instance (y m d : ℕ) : Decidable (validDate y m d) := by
  unfold validDate; infer_instance

/-- `DAYS` of `app.py`: Sunday-first French day names. -/
def DAYS_sundayFirst : List String :=
  ["Dimanche", "Lundi", "Mardi", "Mercredi", "Jeudi", "Vendredi", "Samedi"]

/-- `days` local to `pretty_fr_header` of `app_sheets.py`: Monday-first. -/
def DAYS_mondayFirst : List String :=
  ["Lundi", "Mardi", "Mercredi", "Jeudi", "Vendredi", "Samedi", "Dimanche"]

/-- `app.py` day-name lookup: `DAYS[dt.weekday()+1 if dt.weekday()<6 else 0]`. -/
def frDayName_app (w : ℕ) : String :=
  DAYS_sundayFirst.getD (if w < 6 then w + 1 else 0) ""

/-- `app_sheets.py` day-name lookup: `days[dt.weekday()]`. -/
def frDayName_sheets (w : ℕ) : String :=
  DAYS_mondayFirst.getD w ""

/-- `pretty_fr_header` of `app.py` on the date's `(y, m, d)` components
(the ISO-string split is the date codec's concern). -/
def pretty_fr_header_app (y m d : ℕ) : String :=
  frDayName_app (pyWeekday y m d) ++ " " ++ padZeros 2 d ++ "." ++ padZeros 2 m

/-- `pretty_fr_header` of `app_sheets.py` on `(y, m, d)` components. -/
def pretty_fr_header_sheets (y m d : ℕ) : String :=
  frDayName_sheets (pyWeekday y m d) ++ " " ++ padZeros 2 d ++ "." ++ padZeros 2 m

/-! ### Data model -/

/-- `ParamRow` (schedule entry): `open` is spelled `open_` (Lean keyword). -/
structure ParamRow where
  date_iso : String
  jour : String
  menu : String
  open_ : Bool
  disabled : Bool
deriving DecidableEq

/-- `Reservation` row; list position models the autoincrement ordinal. -/
structure Reservation where
  date_iso : String
  name : String
deriving DecidableEq

/-- `TillRow`; `total` is the cash collected for the line. -/
structure TillRow where
  date_iso : String
  name : String
  type : String
  base : ℚ
  beverage : ℚ
  chocolate : ℚ
  total : ℚ
deriving DecidableEq

/-- Derived `Totals` (pydantic model in both variants). -/
structure Totals where
  menus : ℕ
  eleves : ℕ
  profs : ℕ
  sandwiches : ℕ
  beverages : ℕ
  chocolates : ℕ
  amount : ℚ
deriving DecidableEq

/-- `Totals()` with every counter zero. -/
def Totals.init : Totals := ⟨0, 0, 0, 0, 0, 0, 0⟩

/-- The three persisted tables, each in insertion order. -/
structure State where
  params : List ParamRow
  reservations : List Reservation
  till : List TillRow
deriving DecidableEq

/-- `CaisseOut`: the payload of `GET /api/caisse`. -/
structure CaisseOut where
  date : String
  closed : Bool
  names : List String
  totals : Totals
deriving DecidableEq

/-- The typed failures (HTTP 400 responses) of the operation surface. -/
inductive Err where
  | notOpen
  | closed
  | quotaExceeded
  | capacityExceeded
  | notFound
deriving DecidableEq

deriving instance DecidableEq for Except

/-! ### Reconciliation engine -/

/-- `is_closed`: some till row for the date has type `"Closed"`. -/
def is_closed (till : List TillRow) (iso : String) : Bool :=
  till.any (fun r => r.date_iso == iso && r.type == "Closed")

/-- Pointwise update of a paid-count map (`paidCount[key] = v`). -/
def bump (pc : String → ℕ) (k : String) (v : ℕ) : String → ℕ :=
  fun q => if q = k then v else pc q

/-- A till row counted as a menu by `build_totals`: not the closing marker
and not one of the three add-on rows. -/
def isMealRow (r : TillRow) : Bool :=
  !(r.type == "Closed") && !(r.type == "Sandwich")
    && !(r.type == "Boisson") && !(r.type == "Chocolat")

/-- One loop iteration of `build_totals` over a till row of the date. -/
def till_step (acc : Totals × (String → ℕ)) (row : TillRow) :
    Totals × (String → ℕ) :=
  if row.type = "Closed" then acc
  else if row.type = "Sandwich" then
    ({ acc.1 with sandwiches := acc.1.sandwiches + 1,
                  amount := acc.1.amount + row.total }, acc.2)
  else if row.type = "Boisson" then
    ({ acc.1 with beverages := acc.1.beverages + 1,
                  amount := acc.1.amount + row.total }, acc.2)
  else if row.type = "Chocolat" then
    ({ acc.1 with chocolates := acc.1.chocolates + 1,
                  amount := acc.1.amount + row.total }, acc.2)
  else
    ({ acc.1 with
        menus := acc.1.menus + 1,
        eleves := if strContains (pyLower row.type) "eleve" then acc.1.eleves + 1
                  else acc.1.eleves,
        profs := if strContains (pyLower row.type) "eleve" then acc.1.profs
                 else acc.1.profs + 1,
        beverages := if 0 < row.beverage then acc.1.beverages + 1
                     else acc.1.beverages,
        chocolates := if 0 < row.chocolate then acc.1.chocolates + 1
                      else acc.1.chocolates,
        amount := acc.1.amount + row.total },
     if norm_name row.name = "" then acc.2
     else bump acc.2 (norm_name row.name) (acc.2 (norm_name row.name) + 1))

/-- `build_totals`: fold the date's till rows into totals and the
per-normalized-name paid-meal count map. -/
def build_totals (till : List TillRow) (iso : String) :
    Totals × (String → ℕ) :=
  (till.filter (fun r => r.date_iso == iso)).foldl till_step
    (Totals.init, fun _ => 0)

/-- The reconciliation walk of `api_caisse`: for each reservation in
registration order, consume a paid credit for its normalized name if one
remains, otherwise keep the raw name in the output queue. -/
def queue_walk (pc : String → ℕ) : List Reservation → List String
  | [] => []
  | r :: rs =>
    if 0 < pc (norm_name r.name) then
      queue_walk (bump pc (norm_name r.name) (pc (norm_name r.name) - 1)) rs
    else
      r.name :: queue_walk pc rs

/-- `GET /api/caisse` for an explicit ISO date. -/
def api_caisse (st : State) (iso : String) : CaisseOut :=
  if is_closed st.till iso then
    ⟨iso, true, [], (build_totals st.till iso).1⟩
  else
    ⟨iso, false,
     queue_walk (build_totals st.till iso).2
       (st.reservations.filter (fun r => r.date_iso == iso)),
     (build_totals st.till iso).1⟩

/-! ### Reservation ledger -/

/-- `POST /api/reserve` (the ISO date is `to_iso_any` of the request's
`dateStr`, modelled separately by the date codec). -/
def api_reserve (st : State) (iso name : String) : Except Err State :=
  if !(st.params.any (fun p => p.date_iso == iso && p.open_)) then
    Except.error Err.notOpen
  else if 40 ≤ (st.reservations.filter (fun r => r.date_iso == iso)).length then
    Except.error Err.quotaExceeded
  else
    Except.ok { st with reservations := st.reservations ++ [⟨iso, pyStrip name⟩] }

/-- Delete the first reservation whose date matches and whose stripped
stored name equals the stripped target (`api_unreserve`'s loop). -/
def removeFirstRes (l : List Reservation) (iso target : String) :
    Option (List Reservation) :=
  match l with
  | [] => none
  | r :: rs =>
    if r.date_iso = iso ∧ pyStrip r.name = target then some rs
    else (removeFirstRes rs iso target).map (fun l2 => r :: l2)

/-- `POST /api/unreserve`. -/
def api_unreserve (st : State) (iso name : String) : Except Err State :=
  match removeFirstRes st.reservations iso (pyStrip name) with
  | some l => Except.ok { st with reservations := l }
  | none => Except.error Err.notFound

/-! ### Till ledger operations -/

/-- `typ = (inp.type or "PROF").upper()` of `api_checkout`. -/
def checkoutType (typ0 : String) : String :=
  pyUpper (if typ0 = "" then "PROF" else typ0)

/-- `method = (inp.method or "CASH").upper()` of `api_checkout`. -/
def checkoutMethod (method0 : String) : String :=
  pyUpper (if method0 = "" then "CASH" else method0)

/-- The till row appended by `api_checkout`: price table `ELEVE = 8`,
`PROF = 12`, `BOISSON = 2`, `CHOCOLAT = 1.5`; blank names become
`"Anonyme"`; a `CARD` meal collects only the add-on cash. -/
def checkoutRow (iso name typ0 method0 : String) (bev choc : Bool) : TillRow :=
  ⟨iso,
   if pyStrip name = "" then "Anonyme" else pyStrip name,
   (if checkoutType typ0 = "ELEVE" then "Eleve" else "Prof")
     ++ (if checkoutMethod method0 = "CARD" then " (CARD)" else " (CASH)"),
   if checkoutType typ0 = "ELEVE" then 8 else 12,
   if bev then 2 else 0,
   if choc then 3 / 2 else 0,
   if checkoutMethod method0 = "CARD"
   then (if bev then (2 : ℚ) else 0) + (if choc then (3 : ℚ) / 2 else 0)
   else (if checkoutType typ0 = "ELEVE" then (8 : ℚ) else 12)
          + (if bev then (2 : ℚ) else 0) + (if choc then (3 : ℚ) / 2 else 0)⟩

/-- `POST /api/checkout`: `assert_open`, `assert_capacity` (45 menus),
then append the meal row and return the refreshed caisse payload. -/
def api_checkout (st : State) (iso name typ method : String)
    (bev choc : Bool) : Except Err (State × CaisseOut) :=
  if is_closed st.till iso then Except.error Err.closed
  else if 45 ≤ (build_totals st.till iso).1.menus then
    Except.error Err.capacityExceeded
  else
    let st1 : State :=
      { st with till := st.till ++ [checkoutRow iso name typ method bev choc] }
    Except.ok (st1, api_caisse st1 iso)

/-- `POST /api/add/sandwich`: `max(1, qty)` rows at the fixed price 6. -/
def api_add_sandwich (st : State) (iso : String) (qty : Int) :
    Except Err (State × CaisseOut) :=
  if is_closed st.till iso then Except.error Err.closed
  else
    let st1 : State :=
      { st with till := st.till
          ++ List.replicate (max 1 qty).toNat ⟨iso, "", "Sandwich", 6, 0, 0, 6⟩ }
    Except.ok (st1, api_caisse st1 iso)

/-- `POST /api/add/beverage`: `max(1, qty)` rows at the fixed price 2. -/
def api_add_beverage (st : State) (iso : String) (qty : Int) :
    Except Err (State × CaisseOut) :=
  if is_closed st.till iso then Except.error Err.closed
  else
    let row : TillRow := ⟨iso, "", "Boisson", 0, 2, 0, 2⟩
    let st1 : State :=
      { st with till := st.till ++ List.replicate (max 1 qty).toNat row }
    Except.ok (st1, api_caisse st1 iso)

/-- `POST /api/add/chocolate`: `max(1, qty)` rows at the fixed price 1.5. -/
def api_add_chocolate (st : State) (iso : String) (qty : Int) :
    Except Err (State × CaisseOut) :=
  if is_closed st.till iso then Except.error Err.closed
  else
    let row : TillRow := ⟨iso, "", "Chocolat", 0, 0, 3 / 2, 3 / 2⟩
    let st1 : State :=
      { st with till := st.till ++ List.replicate (max 1 qty).toNat row }
    Except.ok (st1, api_caisse st1 iso)

/-- `POST /api/close`: always appends the closing marker (the e-mail
side effect is swallowed and ignored here). -/
def api_close (st : State) (iso : String) : State :=
  { st with till := st.till ++ [⟨iso, "", "Closed", 0, 0, 0, 0⟩] }

/-- Occurrences in a name list whose normalized form is `k`. -/
def countNorm (l : List String) (k : String) : ℕ :=
  (l.filter (fun n => norm_name n == k)).length

/-! ### Helper lemmas -/

lemma bump_self (pc : String → ℕ) (k : String) (v : ℕ) : bump pc k v k = v := by
  simp [bump]

lemma bump_ne (pc : String → ℕ) (k : String) (v : ℕ) (q : String) (h : q ≠ k) :
    bump pc k v q = pc q := by
  simp [bump, h]

lemma bump_comm (pc : String → ℕ) (k1 k2 : String) (v1 v2 : ℕ) (h : k1 ≠ k2) :
    bump (bump pc k1 v1) k2 v2 = bump (bump pc k2 v2) k1 v1 := by
  funext q
  by_cases h1 : q = k1
  · by_cases h2 : q = k2
    · exact absurd (h1.symm.trans h2) h
    · simp [bump, h1, h2, h]
  · by_cases h2 : q = k2
    · simp [bump, h1, h2, Ne.symm h]
    · simp [bump, h1, h2]

lemma countNorm_nil (k : String) : countNorm [] k = 0 := rfl

lemma countNorm_cons (n : String) (l : List String) (k : String) :
    countNorm (n :: l) k = (if norm_name n = k then 1 else 0) + countNorm l k := by
  by_cases h : norm_name n = k
  · simp [countNorm, List.filter_cons, h, Nat.add_comm]
  · simp [countNorm, List.filter_cons, h]

lemma queue_walk_count (rs : List Reservation) (pc : String → ℕ) (k : String) :
    countNorm (queue_walk pc rs) k = countNorm (rs.map Reservation.name) k - pc k := by
  induction rs generalizing pc with
  | nil => simp [queue_walk, countNorm_nil]
  | cons r rs ih =>
    by_cases hpos : 0 < pc (norm_name r.name)
    · rw [queue_walk, if_pos hpos, ih]
      by_cases hk : norm_name r.name = k
      · rw [hk, bump_self, List.map_cons, countNorm_cons, if_pos hk]
        rw [hk] at hpos
        omega
      · rw [bump_ne _ _ _ _ (fun hh => hk hh.symm), List.map_cons,
          countNorm_cons, if_neg hk]
        omega
    · rw [queue_walk, if_neg hpos, countNorm_cons, ih, List.map_cons,
        countNorm_cons]
      by_cases hk : norm_name r.name = k
      · rw [hk] at hpos
        rw [if_pos hk]
        omega
      · rw [if_neg hk]
        omega

lemma queue_walk_sublist (rs : List Reservation) (pc : String → ℕ) :
    (queue_walk pc rs).Sublist (rs.map Reservation.name) := by
  induction rs generalizing pc with
  | nil => simp [queue_walk]
  | cons r rs ih =>
    rw [queue_walk, List.map_cons]
    split_ifs with h
    · exact (ih _).cons _
    · exact (ih _).cons₂ _

lemma queue_walk_bump_unused (rs : List Reservation) (pc : String → ℕ)
    (k : String) (v : ℕ) (h : ∀ r ∈ rs, norm_name r.name ≠ k) :
    queue_walk (bump pc k v) rs = queue_walk pc rs := by
  induction rs generalizing pc v with
  | nil => rfl
  | cons r rs ih =>
    have hr : norm_name r.name ≠ k := h r (List.mem_cons_self r rs)
    have hrest : ∀ q ∈ rs, norm_name q.name ≠ k :=
      fun q hq => h q (List.mem_cons_of_mem r hq)
    have e1 : (bump pc k v) (norm_name r.name) = pc (norm_name r.name) :=
      bump_ne _ _ _ _ hr
    by_cases hpos : 0 < pc (norm_name r.name)
    · rw [queue_walk, queue_walk, e1, if_pos hpos,
        bump_comm _ _ _ _ _ (Ne.symm hr), ih _ _ hrest, if_pos hpos]
    · rw [queue_walk, queue_walk, e1, if_neg hpos, ih _ _ hrest, if_neg hpos]

lemma till_pc_step (a : Totals × (String → ℕ)) (r : TillRow) (k : String)
    (hk : k ≠ "") :
    (till_step a r).2 k
      = a.2 k + (if (isMealRow r && (norm_name r.name == k)) = true then 1 else 0) := by
  by_cases h1 : r.type = "Closed"
  · simp [till_step, isMealRow, h1]
  · by_cases h2 : r.type = "Sandwich"
    · simp [till_step, isMealRow, h1, h2]
    · by_cases h3 : r.type = "Boisson"
      · simp [till_step, isMealRow, h1, h2, h3]
      · by_cases h4 : r.type = "Chocolat"
        · simp [till_step, isMealRow, h1, h2, h3, h4]
        · have hm : isMealRow r = true := by simp [isMealRow, h1, h2, h3, h4]
          rw [till_step, if_neg h1, if_neg h2, if_neg h3, if_neg h4]
          by_cases h5 : norm_name r.name = ""
          · simp [h5, hm, Ne.symm hk]
          · by_cases h6 : norm_name r.name = k
            · rw [if_neg h5, h6]
              dsimp only
              rw [bump_self]
              simp [hm]
            · rw [if_neg h5]
              dsimp only
              rw [bump_ne _ _ _ _ (fun hh => h6 hh.symm)]
              simp [h6]

lemma foldl_till_pc (rows : List TillRow) (a : Totals × (String → ℕ))
    (k : String) (hk : k ≠ "") :
    (rows.foldl till_step a).2 k
      = a.2 k + (rows.filter (fun r => isMealRow r && (norm_name r.name == k))).length := by
  induction rows generalizing a with
  | nil => simp
  | cons r rs ih =>
    rw [List.foldl_cons, ih, till_pc_step a r k hk, List.filter_cons]
    by_cases h : (isMealRow r && (norm_name r.name == k)) = true
    · simp [h]
      omega
    · simp [h]

lemma till_step_menus (a : Totals × (String → ℕ)) (r : TillRow)
    (h : a.1.menus = a.1.eleves + a.1.profs) :
    (till_step a r).1.menus = (till_step a r).1.eleves + (till_step a r).1.profs := by
  unfold till_step
  split_ifs <;> simp_all <;> omega

lemma foldl_till_menus (rows : List TillRow) (a : Totals × (String → ℕ))
    (h : a.1.menus = a.1.eleves + a.1.profs) :
    (rows.foldl till_step a).1.menus
      = (rows.foldl till_step a).1.eleves + (rows.foldl till_step a).1.profs := by
  induction rows generalizing a with
  | nil => exact h
  | cons r rs ih => exact ih _ (till_step_menus a r h)

lemma build_totals_append_last (till : List TillRow) (iso : String)
    (row : TillRow) (h : row.date_iso = iso) :
    build_totals (till ++ [row]) iso = till_step (build_totals till iso) row := by
  rw [build_totals, List.filter_append, List.foldl_append]
  rw [show (List.filter (fun r => r.date_iso == iso) [row]) = [row] by simp [h]]
  rfl

lemma is_closed_append (till : List TillRow) (row : TillRow) (iso : String) :
    is_closed (till ++ [row]) iso
      = (is_closed till iso || (row.date_iso == iso && row.type == "Closed")) := by
  simp [is_closed, List.any_append]

lemma removeFirstRes_eq_none_iff (l : List Reservation) (iso target : String) :
    removeFirstRes l iso target = none
      ↔ ∀ r ∈ l, ¬(r.date_iso = iso ∧ pyStrip r.name = target) := by
  induction l with
  | nil => simp [removeFirstRes]
  | cons r rs ih =>
    rw [removeFirstRes]
    split_ifs with h
    · exact iff_of_false (by simp) (fun hall => hall r (List.mem_cons_self r rs) h)
    · rw [Option.map_eq_none', ih]
      constructor
      · intro hall q hq
        rcases List.mem_cons.1 hq with hq1 | hq2
        · rw [hq1]; exact h
        · exact hall q hq2
      · intro hall q hq
        exact hall q (List.mem_cons_of_mem r hq)

lemma removeFirstRes_append_match (pre post : List Reservation)
    (r : Reservation) (iso target : String)
    (hpre : ∀ q ∈ pre, ¬(q.date_iso = iso ∧ pyStrip q.name = target))
    (hr : r.date_iso = iso ∧ pyStrip r.name = target) :
    removeFirstRes (pre ++ r :: post) iso target = some (pre ++ post) := by
  induction pre with
  | nil => simp [removeFirstRes, hr]
  | cons p ps ih =>
    have hp : ¬(p.date_iso = iso ∧ pyStrip p.name = target) :=
      hpre p (List.mem_cons_self p ps)
    rw [List.cons_append, removeFirstRes, if_neg hp,
      ih (fun q hq => hpre q (List.mem_cons_of_mem p hq))]
    rfl

lemma frDayName_agree (w : ℕ) (h : w < 7) : frDayName_app w = frDayName_sheets w := by
  interval_cases w <;> rfl

lemma pyWeekday_lt (y m d : ℕ) : pyWeekday y m d < 7 := by
  unfold pyWeekday
  exact Nat.mod_lt _ (by norm_num)

lemma api_checkout_ok_eq (st : State) (iso name typ method : String)
    (bev choc : Bool) (hopen : is_closed st.till iso = false)
    (hcap : (build_totals st.till iso).1.menus < 45) :
    api_checkout st iso name typ method bev choc
      = Except.ok
          ({ st with till := st.till ++ [checkoutRow iso name typ method bev choc] },
           api_caisse
             { st with till := st.till ++ [checkoutRow iso name typ method bev choc] }
             iso) := by
  rw [api_checkout, if_neg (by rw [hopen]; exact Bool.false_ne_true),
    if_neg (Nat.not_le.2 hcap)]

lemma checkoutRow_meal (iso name typ method : String) (bev choc : Bool) :
    isMealRow (checkoutRow iso name typ method bev choc) = true := by
  rw [isMealRow]
  by_cases h1 : checkoutType typ = "ELEVE"
    <;> by_cases h2 : checkoutMethod method = "CARD"
    <;> simp [checkoutRow, h1, h2]

lemma isMealRow_props (r : TillRow) (h : isMealRow r = true) :
    ¬r.type = "Closed" ∧ ¬r.type = "Sandwich"
      ∧ ¬r.type = "Boisson" ∧ ¬r.type = "Chocolat" := by
  rw [isMealRow] at h
  simp only [Bool.and_eq_true, Bool.not_eq_true', beq_eq_false_iff_ne] at h
  exact ⟨h.1.1.1, h.1.1.2, h.1.2, h.2⟩

/-! ### Claim theorems -/

/-- C7: for every till ledger and date, the derived totals satisfy
`menus = eleves + profs`: every non-closing, non-add-on row counted as a
menu increments exactly one of the student or staff counters. -/
theorem totals_menus_split (till : List TillRow) (iso : String) :
    (build_totals till iso).1.menus
      = (build_totals till iso).1.eleves + (build_totals till iso).1.profs := by
  rw [build_totals]
  exact foldl_till_menus _ _ rfl

/-- C9 counterexample: the claim asserts the two variants' weekday-label
functions disagree on some valid calendar date; in fact `app.py`'s
`(weekday+1 if weekday<6 else 0)` remap into its Sunday-first table
coincides with `app_sheets.py`'s direct Monday-first lookup on every
date, so no such date exists. -/
theorem weekday_labels_no_disagreement :
    ¬ ∃ y m d : ℕ, validDate y m d
        ∧ pretty_fr_header_app y m d ≠ pretty_fr_header_sheets y m d := by
  rintro ⟨y, m, d, -, hne⟩
  apply hne
  unfold pretty_fr_header_app pretty_fr_header_sheets
  rw [frDayName_agree _ (pyWeekday_lt y m d)]

/-- C9 amended: on every valid calendar date the two variants'
`pretty_fr_header` functions return the same French weekday label. -/
theorem weekday_labels_agree (y m d : ℕ) (_h : validDate y m d) :
    pretty_fr_header_app y m d = pretty_fr_header_sheets y m d := by
  unfold pretty_fr_header_app pretty_fr_header_sheets
  rw [frDayName_agree _ (pyWeekday_lt y m d)]

/-- Witness for C9's amended theorem at the concrete date 2025-03-15. -/
theorem weekday_labels_agree_witness :
    validDate 2025 3 15
    ∧ pretty_fr_header_app 2025 3 15 = pretty_fr_header_sheets 2025 3 15 :=
  ⟨by decide, weekday_labels_agree 2025 3 15 (by decide)⟩

/-- C4: registration fails with `notOpen` when no schedule row for the
date has the open flag, fails with `quotaExceeded` when 40 or more
reservations exist for the date, and succeeds at 39, appending the new
reservation at the tail (the next ordinal). -/
theorem reserve_spec (st : State) (iso name : String) :
    ((¬ ∃ p ∈ st.params, p.date_iso = iso ∧ p.open_ = true) →
        api_reserve st iso name = Except.error Err.notOpen)
    ∧ ((∃ p ∈ st.params, p.date_iso = iso ∧ p.open_ = true) →
        40 ≤ (st.reservations.filter (fun r => r.date_iso == iso)).length →
        api_reserve st iso name = Except.error Err.quotaExceeded)
    ∧ ((∃ p ∈ st.params, p.date_iso = iso ∧ p.open_ = true) →
        (st.reservations.filter (fun r => r.date_iso == iso)).length = 39 →
        api_reserve st iso name
          = Except.ok { st with reservations := st.reservations ++ [⟨iso, pyStrip name⟩] }) := by
  have key : (st.params.any (fun p => p.date_iso == iso && p.open_) = true)
      ↔ ∃ p ∈ st.params, p.date_iso = iso ∧ p.open_ = true := by
    simp [List.any_eq_true]
  refine ⟨?_, ?_, ?_⟩
  · intro h
    have hc : st.params.any (fun p => p.date_iso == iso && p.open_) = false :=
      Bool.eq_false_iff.2 (fun hb => h (key.1 hb))
    rw [api_reserve, hc]
    rfl
  · intro h hq
    rw [api_reserve, key.2 h, if_neg (by simp), if_pos hq]
  · intro h h39
    rw [api_reserve, key.2 h, if_neg (by simp), if_neg (by omega)]

/-- Witness for C4: with an open schedule row and exactly 39 reservations,
the 40th registration succeeds and is appended at the tail. -/
theorem reserve_spec_witness :
    api_reserve
        (⟨[⟨"2025-03-17", "Lundi", "", true, false⟩],
          List.replicate 39 ⟨"2025-03-17", "X"⟩, []⟩ : State)
        "2025-03-17" "Bob"
      = Except.ok ⟨[⟨"2025-03-17", "Lundi", "", true, false⟩],
          List.replicate 39 ⟨"2025-03-17", "X"⟩ ++ [⟨"2025-03-17", "Bob"⟩], []⟩ :=
  ((reserve_spec _ _ _).2.2 (by decide) (by decide)).trans
    (congrArg Except.ok (by decide))

/-- C5 counterexample: the claim says unregistration matches by
normalized-name equality, so that registering `"  john   smith "` and
then unregistering `"JOHN SMITH"` succeeds; in the code both sides are
only stripped (case- and inner-whitespace-sensitive), and the
unregistration fails with `notFound`. -/
theorem unreserve_normalization_cex :
    api_reserve (⟨[⟨"2025-03-17", "Lundi", "", true, false⟩], [], []⟩ : State)
        "2025-03-17" "  john   smith "
      = Except.ok ⟨[⟨"2025-03-17", "Lundi", "", true, false⟩],
          [⟨"2025-03-17", "john   smith"⟩], []⟩
    ∧ api_unreserve
        (⟨[⟨"2025-03-17", "Lundi", "", true, false⟩],
          [⟨"2025-03-17", "john   smith"⟩], []⟩ : State)
        "2025-03-17" "JOHN SMITH"
      = Except.error Err.notFound :=
  ⟨by decide, by decide⟩

/-- C5 amended: unregistration matches by stripped raw-name equality
(case-sensitive, inner whitespace significant): it fails with `notFound`
iff no reservation for the date has a matching stripped name, and
otherwise deletes exactly the first match in ordinal order. -/
theorem unreserve_spec (st : State) (iso name : String) :
    (api_unreserve st iso name = Except.error Err.notFound
       ↔ ∀ r ∈ st.reservations, ¬(r.date_iso = iso ∧ pyStrip r.name = pyStrip name))
    ∧ (∀ pre post (r : Reservation),
        st.reservations = pre ++ r :: post →
        (∀ q ∈ pre, ¬(q.date_iso = iso ∧ pyStrip q.name = pyStrip name)) →
        r.date_iso = iso → pyStrip r.name = pyStrip name →
        api_unreserve st iso name
          = Except.ok { st with reservations := pre ++ post }) := by
  constructor
  · cases hrm : removeFirstRes st.reservations iso (pyStrip name) with
    | none =>
      exact iff_of_true (by simp [api_unreserve, hrm])
        ((removeFirstRes_eq_none_iff _ _ _).1 hrm)
    | some l =>
      refine iff_of_false (by simp [api_unreserve, hrm]) (fun hall => ?_)
      rw [(removeFirstRes_eq_none_iff _ _ _).2 hall] at hrm
      cases hrm
  · intro pre post r hres hpre hdate hnm
    rw [api_unreserve, hres,
      removeFirstRes_append_match pre post r iso (pyStrip name) hpre ⟨hdate, hnm⟩]

/-- Witness for C5's amended theorem: deleting the unique stripped-name
match. -/
theorem unreserve_spec_witness :
    api_unreserve (⟨[], [⟨"2025-03-17", "Bob"⟩], []⟩ : State) "2025-03-17" "Bob"
      = Except.ok ⟨[], [], []⟩ :=
  (unreserve_spec (⟨[], [⟨"2025-03-17", "Bob"⟩], []⟩ : State) "2025-03-17" "Bob").2
    [] [] ⟨"2025-03-17", "Bob"⟩ rfl (by simp) rfl rfl

/-- C3 counterexample: for a date that is closed at the till but whose
schedule row is still open, unregistration succeeds and registration
succeeds, both mutating the reservation ledger — contradicting the claim
that every reservation mutation is rejected once the date is closed. -/
theorem closed_reservation_mutation_cex :
    is_closed
        ([⟨"2025-03-17", "", "Closed", 0, 0, 0, 0⟩] : List TillRow) "2025-03-17" = true
    ∧ api_unreserve
        (⟨[⟨"2025-03-17", "Lundi", "", true, false⟩], [⟨"2025-03-17", "Bob"⟩],
          [⟨"2025-03-17", "", "Closed", 0, 0, 0, 0⟩]⟩ : State)
        "2025-03-17" "Bob"
      = Except.ok ⟨[⟨"2025-03-17", "Lundi", "", true, false⟩], [],
          [⟨"2025-03-17", "", "Closed", 0, 0, 0, 0⟩]⟩
    ∧ api_reserve
        (⟨[⟨"2025-03-17", "Lundi", "", true, false⟩], [⟨"2025-03-17", "Bob"⟩],
          [⟨"2025-03-17", "", "Closed", 0, 0, 0, 0⟩]⟩ : State)
        "2025-03-17" "Alice"
      = Except.ok ⟨[⟨"2025-03-17", "Lundi", "", true, false⟩],
          [⟨"2025-03-17", "Bob"⟩, ⟨"2025-03-17", "Alice"⟩],
          [⟨"2025-03-17", "", "Closed", 0, 0, 0, 0⟩]⟩ :=
  ⟨by decide, by decide, by decide⟩

/-- C3 amended: closure is monotonic on the till surface — once a
`Closed` row exists for a date, `is_closed` stays true under any further
append, checkout and every add-on append are rejected, and a duplicate
close leaves the date closed; reservation mutations are not guarded by
the marker. -/
theorem closed_monotonic_till (st : State) (iso : String)
    (h : is_closed st.till iso = true) :
    (∀ row : TillRow, is_closed (st.till ++ [row]) iso = true)
    ∧ (∀ name typ method bev choc,
        api_checkout st iso name typ method bev choc = Except.error Err.closed)
    ∧ (∀ q : Int, api_add_sandwich st iso q = Except.error Err.closed)
    ∧ (∀ q : Int, api_add_beverage st iso q = Except.error Err.closed)
    ∧ (∀ q : Int, api_add_chocolate st iso q = Except.error Err.closed)
    ∧ is_closed (api_close st iso).till iso = true := by
  refine ⟨?_, ?_, ?_, ?_, ?_, ?_⟩
  · intro row
    simp [is_closed_append, h]
  · intro name typ method bev choc
    rw [api_checkout, if_pos h]
  · intro q
    rw [api_add_sandwich, if_pos h]
  · intro q
    rw [api_add_beverage, if_pos h]
  · intro q
    rw [api_add_chocolate, if_pos h]
  · simp [api_close, is_closed_append, h]

/-- Witness for C3's amended theorem on a concrete closed day. -/
theorem closed_monotonic_till_witness :
    api_checkout
        (⟨[], [], [⟨"2025-03-17", "", "Closed", 0, 0, 0, 0⟩]⟩ : State)
        "2025-03-17" "A" "ELEVE" "CASH" false false
      = Except.error Err.closed
    ∧ api_add_sandwich
        (⟨[], [], [⟨"2025-03-17", "", "Closed", 0, 0, 0, 0⟩]⟩ : State)
        "2025-03-17" 1
      = Except.error Err.closed :=
  ⟨(closed_monotonic_till _ "2025-03-17" (by decide)).2.1 "A" "ELEVE" "CASH" false false,
   (closed_monotonic_till
      (⟨[], [], [⟨"2025-03-17", "", "Closed", 0, 0, 0, 0⟩]⟩ : State)
      "2025-03-17" (by decide)).2.2.1 1⟩

/-- C1: for a date that is not closed, the remaining queue walks the
date's reservations in registration order; each normalized non-empty
name `k` survives exactly `registered(k) - paid(k)` times (truncated
subtraction realizes `max(0, ·)`, so credits never go negative), where
`paid(k)` counts the date's non-closing meal till rows whose normalized
payer name is `k`; and the queue is a subsequence of the date's
reservation names, preserving their relative order. -/
theorem caisse_queue_spec (st : State) (iso k : String)
    (hclosed : is_closed st.till iso = false) (hk : k ≠ "") :
    countNorm (api_caisse st iso).names k
      = countNorm ((st.reservations.filter (fun r => r.date_iso == iso)).map
            Reservation.name) k
        - ((st.till.filter (fun r => r.date_iso == iso)).filter
             (fun r => isMealRow r && (norm_name r.name == k))).length
    ∧ (api_caisse st iso).names.Sublist
        ((st.reservations.filter (fun r => r.date_iso == iso)).map
          Reservation.name) := by
  have hnames : (api_caisse st iso).names
      = queue_walk (build_totals st.till iso).2
          (st.reservations.filter (fun r => r.date_iso == iso)) := by
    rw [api_caisse, if_neg (by simp [hclosed])]
  have hpc : (build_totals st.till iso).2 k
      = ((st.till.filter (fun r => r.date_iso == iso)).filter
          (fun r => isMealRow r && (norm_name r.name == k))).length := by
    rw [build_totals, foldl_till_pc _ _ _ hk]
    simp
  constructor
  · rw [hnames, queue_walk_count, hpc]
  · rw [hnames]
    exact queue_walk_sublist _ _

/-- Witness for C1: "JOHN SMITH" registered twice (in different
spellings), paid once — the queue keeps exactly one entry. -/
theorem caisse_queue_spec_witness :
    countNorm
        (api_caisse
          (⟨[], [⟨"2025-03-17", "Bob"⟩, ⟨"2025-03-17", "john smith"⟩,
              ⟨"2025-03-17", "JOHN  SMITH"⟩],
            [⟨"2025-03-17", "John Smith", "Eleve (CASH)", 8, 0, 0, 8⟩]⟩ : State)
          "2025-03-17").names "JOHN SMITH" = 1 :=
  ((caisse_queue_spec _ "2025-03-17" "JOHN SMITH" (by decide) (by decide)).1).trans
    (by decide)

/-- C2: checkout fails `closed` on a closed date, fails
`capacityExceeded` at 45 menus, otherwise appends one meal row priced
from the table (student 8, staff 12, beverage 2, chocolate 1.5; CARD
collects only add-on cash) and returns the refreshed caisse payload;
concretely, on an open empty day a Student/Cash checkout with beverage
yields totals (1 menu, 1 student, 1 beverage, 10.00), two sandwiches
bring the amount to 22.00, and after closing a further checkout fails. -/
theorem checkout_spec (st : State) (iso name typ method : String) (bev choc : Bool) :
    (is_closed st.till iso = true →
        api_checkout st iso name typ method bev choc = Except.error Err.closed)
    ∧ (is_closed st.till iso = false → 45 ≤ (build_totals st.till iso).1.menus →
        api_checkout st iso name typ method bev choc = Except.error Err.capacityExceeded)
    ∧ (is_closed st.till iso = false → (build_totals st.till iso).1.menus < 45 →
        api_checkout st iso name typ method bev choc
          = Except.ok
              ({ st with till := st.till ++ [checkoutRow iso name typ method bev choc] },
               api_caisse
                 { st with till := st.till ++ [checkoutRow iso name typ method bev choc] }
                 iso)
        ∧ (checkoutRow iso name typ method bev choc).base
            = (if checkoutType typ = "ELEVE" then (8 : ℚ) else 12)
        ∧ (checkoutRow iso name typ method bev choc).beverage
            = (if bev then (2 : ℚ) else 0)
        ∧ (checkoutRow iso name typ method bev choc).chocolate
            = (if choc then (3 : ℚ) / 2 else 0)
        ∧ (checkoutRow iso name typ method bev choc).total
            = (if checkoutMethod method = "CARD"
               then (checkoutRow iso name typ method bev choc).beverage
                      + (checkoutRow iso name typ method bev choc).chocolate
               else (checkoutRow iso name typ method bev choc).base
                      + (checkoutRow iso name typ method bev choc).beverage
                      + (checkoutRow iso name typ method bev choc).chocolate))
    ∧ (∃ stA outA,
        api_checkout (⟨[], [], []⟩ : State) "2025-03-17" "A" "ELEVE" "CASH" true false
          = Except.ok (stA, outA)
        ∧ outA.totals = ⟨1, 1, 0, 0, 1, 0, 10⟩
        ∧ ∃ stB outB, api_add_sandwich stA "2025-03-17" 2 = Except.ok (stB, outB)
            ∧ outB.totals.sandwiches = 2 ∧ outB.totals.amount = 22
            ∧ is_closed (api_close stB "2025-03-17").till "2025-03-17" = true
            ∧ api_checkout (api_close stB "2025-03-17") "2025-03-17"
                "B" "ELEVE" "CASH" false false
              = Except.error Err.closed) := by
  refine ⟨?_, ?_, ?_, ?_⟩
  · intro h
    rw [api_checkout, if_pos h]
  · intro h hcap
    rw [api_checkout, if_neg (by simp [h]), if_pos hcap]
  · intro h hcap
    exact ⟨api_checkout_ok_eq st iso name typ method bev choc h hcap, rfl, rfl, rfl, rfl⟩
  · refine ⟨⟨[], [], [⟨"2025-03-17", "A", "Eleve (CASH)", 8, 2, 0, 10⟩]⟩,
      ⟨"2025-03-17", false, [], ⟨1, 1, 0, 0, 1, 0, 10⟩⟩,
      by with_unfolding_all rfl, by with_unfolding_all rfl,
      ⟨[], [], [⟨"2025-03-17", "A", "Eleve (CASH)", 8, 2, 0, 10⟩,
        ⟨"2025-03-17", "", "Sandwich", 6, 0, 0, 6⟩,
        ⟨"2025-03-17", "", "Sandwich", 6, 0, 0, 6⟩]⟩,
      ⟨"2025-03-17", false, [], ⟨1, 1, 0, 2, 1, 0, 22⟩⟩,
      by with_unfolding_all rfl, by with_unfolding_all rfl,
      by with_unfolding_all rfl, by with_unfolding_all rfl,
      by with_unfolding_all rfl⟩

/-- Witness for C2 on a concrete closed day. -/
theorem checkout_spec_witness :
    api_checkout (⟨[], [], [⟨"2025-03-17", "", "Closed", 0, 0, 0, 0⟩]⟩ : State)
        "2025-03-17" "A" "ELEVE" "CASH" false false
      = Except.error Err.closed :=
  (checkout_spec _ "2025-03-17" "A" "ELEVE" "CASH" false false).1 (by decide)

/-- C6 counterexample: the claim says a blank-name walk-in checkout never
changes the remaining queue because its normalized key is empty; in the
code the blank name is stored as `"Anonyme"`, whose normalized key is
`"ANONYME"`, so with a reservation named `"Anonyme"` the queue shrinks
from `["Anonyme"]` to `[]` after the walk-in checkout. -/
theorem walkin_consumes_credit_cex :
    (api_caisse (⟨[], [⟨"2025-03-17", "Anonyme"⟩], []⟩ : State) "2025-03-17").names
      = ["Anonyme"]
    ∧ api_checkout (⟨[], [⟨"2025-03-17", "Anonyme"⟩], []⟩ : State) "2025-03-17"
        "" "ELEVE" "CASH" false false
      = Except.ok
          (⟨[], [⟨"2025-03-17", "Anonyme"⟩],
            [⟨"2025-03-17", "Anonyme", "Eleve (CASH)", 8, 0, 0, 8⟩]⟩,
           ⟨"2025-03-17", false, [], ⟨1, 1, 0, 0, 0, 0, 8⟩⟩) :=
  ⟨by with_unfolding_all rfl, by with_unfolding_all rfl⟩

/-- C6 amended: a walk-in checkout (blank or `"Anonyme"` display name)
is stored under the name `"Anonyme"` with normalized key `"ANONYME"`;
it leaves the remaining queue unchanged provided no reservation of the
date normalizes to `"ANONYME"`. -/
theorem walkin_queue_spec (st : State) (iso name typ method : String)
    (bev choc : Bool)
    (hblank : pyStrip name = "" ∨ pyStrip name = "Anonyme")
    (hnores : ∀ r ∈ st.reservations, r.date_iso = iso → norm_name r.name ≠ "ANONYME")
    (hopen : is_closed st.till iso = false)
    (hcap : (build_totals st.till iso).1.menus < 45) :
    ∃ st1 : State,
      api_checkout st iso name typ method bev choc = Except.ok (st1, api_caisse st1 iso)
      ∧ (api_caisse st1 iso).names = (api_caisse st iso).names := by
  refine ⟨_, api_checkout_ok_eq st iso name typ method bev choc hopen hcap, ?_⟩
  have hmeal := checkoutRow_meal iso name typ method bev choc
  have hp := isMealRow_props _ hmeal
  have hrowname : (checkoutRow iso name typ method bev choc).name = "Anonyme" := by
    rcases hblank with hb | hb
    · simp [checkoutRow, hb]
    · simp [checkoutRow, hb]
  have hkey : norm_name (checkoutRow iso name typ method bev choc).name = "ANONYME" := by
    rw [hrowname]
    decide
  have hnotclosed1 : is_closed
      (st.till ++ [checkoutRow iso name typ method bev choc]) iso = false := by
    rw [is_closed_append, hopen]
    simp [hp.1]
  have hbt : (build_totals (st.till ++ [checkoutRow iso name typ method bev choc]) iso).2
      = bump (build_totals st.till iso).2 "ANONYME"
          ((build_totals st.till iso).2 "ANONYME" + 1) := by
    rw [build_totals_append_last st.till iso (checkoutRow iso name typ method bev choc) rfl,
      till_step, if_neg hp.1, if_neg hp.2.1, if_neg hp.2.2.1, if_neg hp.2.2.2]
    dsimp only
    rw [hkey, if_neg (by decide)]
  have hq1 : (api_caisse
        { st with till := st.till ++ [checkoutRow iso name typ method bev choc] }
        iso).names
      = queue_walk
          (build_totals (st.till ++ [checkoutRow iso name typ method bev choc]) iso).2
          (st.reservations.filter (fun r => r.date_iso == iso)) := by
    rw [api_caisse, if_neg (by simp [hnotclosed1])]
  have hq0 : (api_caisse st iso).names
      = queue_walk (build_totals st.till iso).2
          (st.reservations.filter (fun r => r.date_iso == iso)) := by
    rw [api_caisse, if_neg (by simp [hopen])]
  rw [hq1, hq0, hbt]
  apply queue_walk_bump_unused
  intro r hrmem
  have hm := List.mem_filter.1 hrmem
  exact hnores r hm.1 (by simpa using hm.2)

/-- Witness for C6's amended theorem: a blank walk-in leaves Bob's
queue entry alone. -/
theorem walkin_queue_spec_witness :
    ∃ st1 : State,
      api_checkout (⟨[], [⟨"2025-03-17", "Bob"⟩], []⟩ : State) "2025-03-17"
          "" "ELEVE" "CASH" false false
        = Except.ok (st1, api_caisse st1 "2025-03-17")
      ∧ (api_caisse st1 "2025-03-17").names
          = (api_caisse (⟨[], [⟨"2025-03-17", "Bob"⟩], []⟩ : State) "2025-03-17").names :=
  walkin_queue_spec _ "2025-03-17" "" "ELEVE" "CASH" false false
    (Or.inl (by decide)) (by decide) (by decide) (by decide)

/-- C8 counterexample: the claim says `to_iso_any` is total and never
raises; the length-10 input `"aa.bb.cccc"` with dots at positions 2 and
5 reaches `int("cccc")` outside any `try` and raises `ValueError`. -/
theorem to_iso_any_raises_cex :
    to_iso_any "2000-01-01" (fun _ => none) "aa.bb.cccc"
      = Except.error PyEx.valueError := by
  decide

/-- C8 amended: `to_iso_any` converts well-formed `dd.mm.yyyy` input
exactly (with exact display round-trip), returns length-10 dash-shaped
input as-is, falls back to today on empty input, and never errors in
the generic-parse fallback; but a length-10 input with dots at
positions 2 and 5 whose pieces are not all integers raises to the
caller instead of falling back. -/
theorem to_iso_any_spec (today s : String) (fromiso : String → Option String) :
    to_iso_any today fromiso "15.03.2025" = Except.ok "2025-03-15"
    ∧ to_display "2025-03-15" = some "15.03.2025"
    ∧ (pyStrip s = "" → to_iso_any today fromiso s = Except.ok today)
    ∧ ((pyStrip s).data.length = 10 →
        ¬((pyStrip s).data[2]? = some '.' ∧ (pyStrip s).data[5]? = some '.') →
        (pyStrip s).data[4]? = some '-' → (pyStrip s).data[7]? = some '-' →
        to_iso_any today fromiso s = Except.ok (pyStrip s))
    ∧ (pyStrip s ≠ "" →
        ¬((pyStrip s).data.length = 10 ∧ (pyStrip s).data[2]? = some '.'
            ∧ (pyStrip s).data[5]? = some '.') →
        ¬((pyStrip s).data.length = 10 ∧ (pyStrip s).data[4]? = some '-'
            ∧ (pyStrip s).data[7]? = some '-') →
        to_iso_any today fromiso s = Except.ok ((fromiso (pyStrip s)).getD today)) := by
  refine ⟨rfl, rfl, ?_, ?_, ?_⟩
  · intro h
    simp only [to_iso_any]
    rw [if_pos h]
  · intro hlen hnotdot h4 h7
    have hne : ¬pyStrip s = "" := by
      intro he
      rw [he] at hlen
      simp at hlen
    simp only [to_iso_any]
    rw [if_neg hne, if_neg (fun hc => hnotdot ⟨hc.2.1, hc.2.2⟩),
      if_pos ⟨hlen, h4, h7⟩]
  · intro hne hnotdot hnotdash
    simp only [to_iso_any]
    rw [if_neg hne, if_neg hnotdot, if_neg hnotdash]
    rcases hfi : fromiso (pyStrip s) with _ | d <;> rfl

/-- Witness for C8's amended theorem at concrete inputs of each shape. -/
theorem to_iso_any_spec_witness :
    to_iso_any "2000-01-01" (fun _ => none) "  " = Except.ok "2000-01-01"
    ∧ to_iso_any "2000-01-01" (fun _ => none) "2025-03-15" = Except.ok "2025-03-15"
    ∧ to_iso_any "2000-01-01" (fun _ => none) "garbage" = Except.ok "2000-01-01" :=
  ⟨(to_iso_any_spec "2000-01-01" "  " (fun _ => none)).2.2.1 (by decide),
   (to_iso_any_spec "2000-01-01" "2025-03-15" (fun _ => none)).2.2.2.1
     (by decide) (by decide) (by decide) (by decide),
   (to_iso_any_spec "2000-01-01" "garbage" (fun _ => none)).2.2.2.2
     (by decide) (by decide) (by decide)⟩

/-- C10: a checkout whose kind does not uppercase to exactly `"ELEVE"`
(unknown kinds, the empty string, misspellings) is never rejected for
its kind: it is priced with the staff base 12, labelled `Prof`, and
counted as a staff meal in the totals. -/
theorem checkout_default_prof (st : State) (iso name typ method : String)
    (bev choc : Bool) (htyp : pyUpper typ ≠ "ELEVE")
    (hopen : is_closed st.till iso = false)
    (hcap : (build_totals st.till iso).1.menus < 45) :
    ∃ st1 : State,
      api_checkout st iso name typ method bev choc = Except.ok (st1, api_caisse st1 iso)
      ∧ st1.till = st.till ++ [checkoutRow iso name typ method bev choc]
      ∧ (checkoutRow iso name typ method bev choc).base = 12
      ∧ strContains (pyLower (checkoutRow iso name typ method bev choc).type) "eleve"
          = false
      ∧ (build_totals st1.till iso).1.profs = (build_totals st.till iso).1.profs + 1
      ∧ (build_totals st1.till iso).1.eleves = (build_totals st.till iso).1.eleves
      ∧ (build_totals st1.till iso).1.menus = (build_totals st.till iso).1.menus + 1 := by
  have hct : checkoutType typ ≠ "ELEVE" := by
    by_cases h0 : typ = ""
    · rw [checkoutType, if_pos h0]
      decide
    · rw [checkoutType, if_neg h0]
      exact htyp
  have hbase : (checkoutRow iso name typ method bev choc).base = 12 := by
    simp [checkoutRow, hct]
  have htype : (checkoutRow iso name typ method bev choc).type
      = "Prof" ++ (if checkoutMethod method = "CARD" then " (CARD)" else " (CASH)") := by
    simp [checkoutRow, hct]
  have hstr : strContains
      (pyLower (checkoutRow iso name typ method bev choc).type) "eleve" = false := by
    rw [htype]
    by_cases h2 : checkoutMethod method = "CARD"
    · rw [if_pos h2]
      decide
    · rw [if_neg h2]
      decide
  have hp := isMealRow_props _ (checkoutRow_meal iso name typ method bev choc)
  have happ : build_totals (st.till ++ [checkoutRow iso name typ method bev choc]) iso
      = till_step (build_totals st.till iso) (checkoutRow iso name typ method bev choc) :=
    build_totals_append_last _ _ _ rfl
  refine ⟨_, api_checkout_ok_eq st iso name typ method bev choc hopen hcap,
    rfl, hbase, hstr, ?_, ?_, ?_⟩
  · show (build_totals (st.till ++ [checkoutRow iso name typ method bev choc]) iso).1.profs
      = (build_totals st.till iso).1.profs + 1
    rw [happ, till_step, if_neg hp.1, if_neg hp.2.1, if_neg hp.2.2.1, if_neg hp.2.2.2]
    dsimp only
    simp [hstr]
  · show (build_totals (st.till ++ [checkoutRow iso name typ method bev choc]) iso).1.eleves
      = (build_totals st.till iso).1.eleves
    rw [happ, till_step, if_neg hp.1, if_neg hp.2.1, if_neg hp.2.2.1, if_neg hp.2.2.2]
    dsimp only
    simp [hstr]
  · show (build_totals (st.till ++ [checkoutRow iso name typ method bev choc]) iso).1.menus
      = (build_totals st.till iso).1.menus + 1
    rw [happ, till_step, if_neg hp.1, if_neg hp.2.1, if_neg hp.2.2.1, if_neg hp.2.2.2]

/-- Witness for C10 with the misspelled kind `"PORF"` on an empty open day. -/
theorem checkout_default_prof_witness :
    ∃ st1 : State,
      api_checkout (⟨[], [], []⟩ : State) "2025-03-17" "A" "PORF" "CASH" false false
        = Except.ok (st1, api_caisse st1 "2025-03-17")
      ∧ st1.till = ([] : List TillRow)
          ++ [checkoutRow "2025-03-17" "A" "PORF" "CASH" false false]
      ∧ (checkoutRow "2025-03-17" "A" "PORF" "CASH" false false).base = 12
      ∧ strContains
          (pyLower (checkoutRow "2025-03-17" "A" "PORF" "CASH" false false).type)
          "eleve" = false
      ∧ (build_totals st1.till "2025-03-17").1.profs
          = (build_totals ([] : List TillRow) "2025-03-17").1.profs + 1
      ∧ (build_totals st1.till "2025-03-17").1.eleves
          = (build_totals ([] : List TillRow) "2025-03-17").1.eleves
      ∧ (build_totals st1.till "2025-03-17").1.menus
          = (build_totals ([] : List TillRow) "2025-03-17").1.menus + 1 :=
  checkout_default_prof (⟨[], [], []⟩ : State) "2025-03-17" "A" "PORF" "CASH"
    false false (by decide) (by decide) (by decide)

end Cafeteria
